import Mathlib

/-!
Verification of the call-session state machine and payload-extraction
pipeline of `src/components/Agent.tsx` (the current revision of the
component, i.e. the second document in that file).  The event payloads
exchanged with the voice transport are JSON-like values; we embed them as
the inductive type `Json` below and translate the component's pure
helpers (`readStringValue`, `readNumberValue`, `readTechstackValue`,
`readQuestionsValue`, `toGeneratePayload`, `extractPayloadFromUnknown`,
`extractPayloadFromMessage`, `hasCompleteInterviewPayload`,
`isMeetingEndedEjection`, `isGenerateClosingPhrase`,
`extractErrorMessage`, `getErrorDetails`) and its event handlers
(`onCallStart`, `onCallEnd`, `onMessage`, `onError`,
`handleEjectionGracefully`, `completeGenerationFlow`,
`endGenerateCallAndContinue`, `runInterviewGeneration`,
`handleDisconnect`, the idle watchdog effect) into Lean functions.

Modelling conventions:
* JavaScript numbers that reach the helpers are modelled as integers
  (`Int`); `NaN`/`Infinity` outcomes of `Number(...)` are modelled as
  `none`.  Non-integer numeric literals do not occur in the claims.
* `undefined` is modelled as the absence of a key (`Option.none` after a
  lookup); JSON `null` is `Json.null`.  Objects originating from JSON
  have unique keys in insertion order, which is also the order
  `Object.entries` reports for the non-index string keys used here.
* React's state/ref split is modelled explicitly: refs update
  synchronously inside a handler, while `callStatusRef` mirrors the
  rendered state and therefore still holds the handler-entry status for
  the duration of one handler (it is synced by an effect between events).
-/

namespace AgentSpec

/-- A JSON-like value as delivered by the voice transport. -/
inductive Json where
  | null
  | bool (b : Bool)
  | num (n : Int)
  | str (s : String)
  | arr (elems : List Json)
  | obj (fields : List (String × Json))
deriving Repr, Inhabited

/-- Property lookup `source[key]` on an object field list: `none` models
`undefined`. -/
def jLookup (fields : List (String × Json)) (key : String) : Option Json :=
  (fields.find? (fun p => p.1 == key)).map (·.2)

/-- Property access `value[key]` on an arbitrary value; string-keyed access
on non-objects yields `undefined`. -/
def jGet (j : Json) (key : String) : Option Json :=
  match j with
  | .obj fields => jLookup fields key
  | _ => none

/-- `key in source`: does the object have the key? -/
def hasKey (fields : List (String × Json)) (key : String) : Bool :=
  fields.any (fun p => p.1 == key)

/-- `typeof v === "object" && v !== null` (arrays included). -/
def isObjLike : Json → Bool
  | .obj _ => true
  | .arr _ => true
  | _ => false

/-- `value[key] === "val"` style string-field test. -/
def jFieldIs (j : Json) (key val : String) : Bool :=
  match jGet j key with
  | some (.str s) => s == val
  | _ => false

/-- Character-level whitespace stripping; with `jsTrim` below this models
`String.prototype.trim` structurally (so that it evaluates inside the
kernel), for the ASCII whitespace the transport emits. -/
def chTrim (cs : List Char) : List Char :=
  ((cs.dropWhile Char.isWhitespace).reverse.dropWhile Char.isWhitespace).reverse

/-- JavaScript `s.trim()`. -/
def jsTrim (s : String) : String := String.mk (chTrim s.data)

/-- JavaScript `s.toLowerCase()` for the ASCII range in use. -/
def jsLower (s : String) : String := String.mk (s.data.map Char.toLower)

/-- Is the first list a prefix of the second? -/
def chPref : List Char → List Char → Bool
  | [], _ => true
  | _ :: _, [] => false
  | p :: ps, c :: cs => p == c && chPref ps cs

/-- JavaScript `s.startsWith(pat)`. -/
def jsStartsWith (s pat : String) : Bool := chPref pat.data s.data

/-- JavaScript `s.endsWith(pat)`. -/
def jsEndsWith (s pat : String) : Bool := chPref pat.data.reverse s.data.reverse

/-- Does the subject contain the pattern as a contiguous run? -/
def chContains (pat : List Char) : List Char → Bool
  | [] => chPref pat []
  | c :: rest => chPref pat (c :: rest) || chContains pat rest

/-- JavaScript `s.includes(pat)`. -/
def strContains (s pat : String) : Bool := chContains pat.data s.data

mutual

/-- JavaScript `String(value)` coercion. -/
def jsToString : Json → String
  | .null => "null"
  | .bool true => "true"
  | .bool false => "false"
  | .num n => toString n
  | .str s => s
  | .arr elems => String.intercalate "," (jsToStringList elems)
  | .obj _ => "[object Object]"

/-- Array elements under `Array.prototype.toString`: `null` joins as the
empty string, other elements via `String(...)`. -/
def jsToStringList : List Json → List String
  | [] => []
  | .null :: rest => "" :: jsToStringList rest
  | j :: rest => jsToString j :: jsToStringList rest

end

/-- Digits of a decimal literal to a natural number; `none` when the
character list is empty or holds a non-digit. -/
def digitsToNat? (cs : List Char) : Option Nat :=
  match cs with
  | [] => none
  | _ =>
    cs.foldl
      (fun acc c =>
        acc.bind fun a => if c.isDigit then some (a * 10 + (c.toNat - 48)) else none)
      (some 0)

/-- JavaScript `Number(string)` restricted to integer literals: the string
is trimmed, the empty string converts to `0`, an optional sign followed by
digits converts to the signed value, and everything else is `NaN`
(`none`). -/
def jsStringToNumber (s : String) : Option Int :=
  let t := jsTrim s
  if t = "" then some 0
  else
    match t.data with
    | '-' :: rest => (digitsToNat? rest).map (fun n => -(n : Int))
    | '+' :: rest => (digitsToNat? rest).map (fun n => (n : Int))
    | cs => (digitsToNat? cs).map (fun n => (n : Int))

/-- JavaScript `Number(value)` coercion; `none` models `NaN`. -/
def jsToNumber : Json → Option Int
  | .null => some 0
  | .bool b => some (if b then 1 else 0)
  | .num n => some n
  | .str s => jsStringToNumber s
  | .arr [] => some 0
  | .arr [.null] => some 0
  | .arr [e] => jsStringToNumber (jsToString e)
  | .arr _ => none
  | .obj _ => none

/-- `RESERVED_MESSAGE_ROLES` of Agent.tsx. -/
def RESERVED_MESSAGE_ROLES : List String :=
  ["user", "assistant", "system", "tool", "function"]

/-- `RESERVED_MESSAGE_TYPES` of Agent.tsx. -/
def RESERVED_MESSAGE_TYPES : List String :=
  ["transcript", "function-call", "function-call-result", "add-message", "status-update"]

/-- A technology-stack or question-list value: the component keeps either
the original delimited string or the normalized string array. -/
inductive StrOrList where
  | str (s : String)
  | list (l : List String)
deriving Repr, DecidableEq, Inhabited

/-- `GenerateInterviewPayload` of Agent.tsx: the normalized interview
specification candidate.  `none` models fields left `undefined`. -/
structure GenerateInterviewPayload where
  role : String
  level : Option String
  type : Option String
  techstack : Option StrOrList
  amount : Option Int
  questions : Option StrOrList
deriving Repr, DecidableEq, Inhabited

/-- `readStringValue` of Agent.tsx: first key whose defined, non-null value
stringifies and trims to a non-empty string. -/
def readStringValue (source : List (String × Json)) : List String → String
  | [] => ""
  | key :: rest =>
    match jLookup source key with
    | none => readStringValue source rest
    | some .null => readStringValue source rest
    | some v =>
      let normalized := jsTrim (jsToString v)
      if normalized ≠ "" then normalized else readStringValue source rest

/-- `readNumberValue` of Agent.tsx: first key whose value converts to a
finite number strictly greater than zero. -/
def readNumberValue (source : List (String × Json)) : List String → Option Int
  | [] => none
  | key :: rest =>
    match jLookup source key with
    | none => readNumberValue source rest
    | some .null => readNumberValue source rest
    | some v =>
      match jsToNumber v with
      | some n => if 0 < n then some n else readNumberValue source rest
      | none => readNumberValue source rest

/-- The `??` coalescing chain over a list of keys: the first value that is
neither `undefined` nor `null`. -/
def coalesceKeys (source : List (String × Json)) : List String → Option Json
  | [] => none
  | key :: rest =>
    match jLookup source key with
    | none => coalesceKeys source rest
    | some .null => coalesceKeys source rest
    | some v => some v

/-- `readTechstackValue` of Agent.tsx. -/
def readTechstackValue (source : List (String × Json)) : Option StrOrList :=
  let techstack :=
    coalesceKeys source ["techstack", "techStack", "technologies", "skills", "stack", "tools"]
  match techstack with
  | some (.arr elems) =>
    let values := (elems.map (fun item => jsTrim (jsToString item))).filter (· ≠ "")
    if values ≠ [] then some (.list values) else none
  | some (.str s) =>
    let normalized := jsTrim s
    if normalized ≠ "" then some (.str normalized) else none
  | _ => none

/-- The `/^question\d+$/i` test of `readQuestionsValue`. -/
def isNumberedQuestionKey (key : String) : Bool :=
  let lower := (jsLower key).data
  chPref "question".data lower &&
    (let rest := lower.drop 8
     rest ≠ [] && rest.all Char.isDigit)

/-- The numbered-question collection of `readQuestionsValue`:
`Object.entries` order (insertion order for these non-index keys), keys
matching `question\d+` with defined non-null values, stringified, trimmed
and filtered. -/
def numberedQuestionsOf (source : List (String × Json)) : List String :=
  ((source.filter (fun p => isNumberedQuestionKey p.1 &&
      (match p.2 with | .null => false | _ => true))).map
    (fun p => jsTrim (jsToString p.2))).filter (· ≠ "")

/-- `readQuestionsValue` of Agent.tsx. -/
def readQuestionsValue (source : List (String × Json)) : Option StrOrList :=
  let questions :=
    coalesceKeys source ["questions", "customQuestions", "questionList", "questionsList"]
  let numberedQuestions := numberedQuestionsOf source
  if numberedQuestions ≠ [] then some (.list numberedQuestions)
  else
    match questions with
    | some (.arr elems) =>
      let values := (elems.map (fun item => jsTrim (jsToString item))).filter (· ≠ "")
      if values ≠ [] then some (.list values) else none
    | some (.str s) =>
      let normalized := jsTrim s
      if normalized ≠ "" then some (.str normalized) else none
    | _ => none

/-- The list of keys tested by the `hasInterviewSpecificKeys` guard of
`toGeneratePayload`, in source order.  Note that the primary aliases
`role` and `type` are not in this list. -/
def interviewSpecificKeys : List String :=
  ["jobRole", "position", "targetRole", "desiredRole", "interviewRole",
   "level", "experienceLevel", "seniority", "expertiseLevel",
   "techstack", "techStack", "technologies", "skills", "stack", "tools",
   "amount", "questionCount", "numberOfQuestions", "totalQuestions",
   "questions", "customQuestions", "questionList", "questionsList"]

/-- The `hasInterviewSpecificKeys` disjunction of `toGeneratePayload`. -/
def hasInterviewSpecificKeys (source : List (String × Json)) : Bool :=
  interviewSpecificKeys.any (hasKey source)

/-- `toGeneratePayload` of Agent.tsx (lines 605-700): direct candidate
extraction from one value.  Non-objects fail the `typeof` guard; arrays
pass it in JavaScript but carry none of the string keys and fall out at
the `hasInterviewSpecificKeys` guard. -/
def toGeneratePayload : Json → Option GenerateInterviewPayload
  | .obj source =>
    if !hasInterviewSpecificKeys source then none
    else
      let roleValue := readStringValue source
        ["role", "jobRole", "position", "targetRole", "desiredRole", "interviewRole"]
      let levelValue := readStringValue source
        ["level", "experienceLevel", "seniority", "expertiseLevel"]
      let typeValue := readStringValue source
        ["type", "interviewType", "focus", "questionType"]
      let techstack := readTechstackValue source
      let questions := readQuestionsValue source
      let amountValue := readNumberValue source
        ["amount", "questionCount", "numberOfQuestions", "totalQuestions"]
      let hasMeaningfulData :=
        roleValue ≠ "" || levelValue ≠ "" || typeValue ≠ "" ||
          techstack.isSome || questions.isSome || amountValue.isSome
      if !hasMeaningfulData then none
      else if roleValue ≠ "" && RESERVED_MESSAGE_ROLES.contains (jsLower roleValue) then none
      else if typeValue ≠ "" && RESERVED_MESSAGE_TYPES.contains (jsLower typeValue) then none
      else some
        { role := if roleValue ≠ "" then roleValue else "General"
          level := if levelValue ≠ "" then some levelValue else none
          type := if typeValue ≠ "" then some typeValue else none
          techstack := techstack
          amount := amountValue
          questions := questions }
  | _ => none

/-- Whitespace skipping for the `JSON.parse` model. -/
def skipWs : List Char → List Char
  | [] => []
  | c :: rest =>
    if c = ' ' || c = '\t' || c = '\n' || c = '\r' then skipWs rest else c :: rest

/-- Match an exact literal tail (`rue` of `true`, ...). -/
def stripLit : List Char → List Char → Option (List Char)
  | [], rest => some rest
  | l :: ls, c :: rest => if c = l then stripLit ls rest else none
  | _ :: _, [] => none

/-- String-literal body of the `JSON.parse` model (after the opening
quote).  The escapes `\" \\ \/ \n \t \r` are handled; rarer escapes make
the parse fail, which the caller treats like a `JSON.parse` throw. -/
def parseStringBody : Nat → List Char → List Char → Option (String × List Char)
  | 0, _, _ => none
  | _ + 1, [], _ => none
  | fuel + 1, c :: rest, acc =>
    if c = '"' then some (String.mk acc.reverse, rest)
    else if c = '\\' then
      match rest with
      | [] => none
      | e :: rest2 =>
        if e = '"' then parseStringBody fuel rest2 ('"' :: acc)
        else if e = '\\' then parseStringBody fuel rest2 ('\\' :: acc)
        else if e = '/' then parseStringBody fuel rest2 ('/' :: acc)
        else if e = 'n' then parseStringBody fuel rest2 ('\n' :: acc)
        else if e = 't' then parseStringBody fuel rest2 ('\t' :: acc)
        else if e = 'r' then parseStringBody fuel rest2 ('\r' :: acc)
        else none
    else parseStringBody fuel rest (c :: acc)

/-- The digits of a JSON number; rejects fraction and exponent parts. -/
def parseJsonNum (cs : List Char) : Option (Int × List Char) :=
  let digits := cs.takeWhile Char.isDigit
  let rest := cs.dropWhile Char.isDigit
  match digitsToNat? digits with
  | none => none
  | some n =>
    match rest with
    | '.' :: _ => none
    | 'e' :: _ => none
    | 'E' :: _ => none
    | _ => some ((n : Int), rest)

mutual

/-- One value of the `JSON.parse` model.  Numeric literals are modelled as
integers; fraction/exponent parts make the parse fail. -/
def parseJsonVal : Nat → List Char → Option (Json × List Char)
  | 0, _ => none
  | fuel + 1, cs =>
    match skipWs cs with
    | [] => none
    | c :: rest =>
      if c = '\x7b' then parseObjFields fuel rest true
      else if c = '[' then parseArrElems fuel rest true
      else if c = '"' then
        (parseStringBody (fuel + 1) rest []).map (fun p => (Json.str p.1, p.2))
      else if c = 't' then (stripLit ['r', 'u', 'e'] rest).map (fun r => (Json.bool true, r))
      else if c = 'f' then
        (stripLit ['a', 'l', 's', 'e'] rest).map (fun r => (Json.bool false, r))
      else if c = 'n' then (stripLit ['u', 'l', 'l'] rest).map (fun r => (Json.null, r))
      else if c = '-' then
        match parseJsonNum rest with
        | some (n, r) => some (Json.num (-n), r)
        | none => none
      else
        match parseJsonNum (c :: rest) with
        | some (n, r) => some (Json.num n, r)
        | none => none

/-- Object members of the `JSON.parse` model; `isFirst` distinguishes the
position right after `{`. -/
def parseObjFields (fuel : Nat) (cs : List Char) (isFirst : Bool) :
    Option (Json × List Char) :=
  match fuel with
  | 0 => none
  | fuel + 1 =>
    match skipWs cs with
    | [] => none
    | c :: rest =>
      if c = '\x7d' && isFirst then some (Json.obj [], rest)
      else
        match parseStringBody (fuel + 1)
            (if c = '"' then rest else []) [] with
        | none => none
        | some (key, afterKey) =>
          match skipWs afterKey with
          | ':' :: afterColon =>
            match parseJsonVal fuel afterColon with
            | none => none
            | some (v, afterVal) =>
              match skipWs afterVal with
              | ',' :: afterComma =>
                match parseObjFields fuel afterComma false with
                | some (Json.obj fields, r) => some (Json.obj ((key, v) :: fields), r)
                | _ => none
              | '\x7d' :: afterClose => some (Json.obj [(key, v)], afterClose)
              | _ => none
          | _ => none

/-- Array elements of the `JSON.parse` model. -/
def parseArrElems (fuel : Nat) (cs : List Char) (isFirst : Bool) :
    Option (Json × List Char) :=
  match fuel with
  | 0 => none
  | fuel + 1 =>
    match skipWs cs with
    | [] => none
    | c :: rest =>
      if c = ']' && isFirst then some (Json.arr [], rest)
      else
        match parseJsonVal fuel (c :: rest) with
        | none => none
        | some (v, afterVal) =>
          match skipWs afterVal with
          | ',' :: afterComma =>
            match parseArrElems fuel afterComma false with
            | some (Json.arr elems, r) => some (Json.arr (v :: elems), r)
            | _ => none
          | ']' :: afterClose => some (Json.arr [v], afterClose)
          | _ => none

end

/-- `JSON.parse` model: a full value with nothing but whitespace after
it.  `none` models a thrown `SyntaxError`. -/
def jsonParse (s : String) : Option Json :=
  match parseJsonVal (2 * s.length + 4) s.data with
  | some (j, rest) => if skipWs rest = [] then some j else none
  | none => none

/-- String quoting of the `JSON.stringify` model. -/
def quoteJsonString (s : String) : String :=
  "\"" ++ String.join (s.data.map (fun c =>
    if c = '"' then "\\\""
    else if c = '\\' then "\\\\"
    else if c = '\n' then "\\n"
    else if c = '\t' then "\\t"
    else if c = '\r' then "\\r"
    else String.singleton c)) ++ "\""

mutual

/-- `JSON.stringify` model (no `undefined`/function members occur in the
`Json` domain). -/
def jsonStringify : Json → String
  | .null => "null"
  | .bool true => "true"
  | .bool false => "false"
  | .num n => toString n
  | .str s => quoteJsonString s
  | .arr elems => "[" ++ String.intercalate "," (jsonStringifyList elems) ++ "]"
  | .obj fields => "\x7b" ++ String.intercalate "," (jsonStringifyFields fields) ++ "\x7d"

/-- Stringified array elements. -/
def jsonStringifyList : List Json → List String
  | [] => []
  | j :: rest => jsonStringify j :: jsonStringifyList rest

/-- Stringified object members. -/
def jsonStringifyFields : List (String × Json) → List String
  | [] => []
  | (k, v) :: rest => (quoteJsonString k ++ ":" ++ jsonStringify v) :: jsonStringifyFields rest

end

mutual

/-- A weight dominating the recursion depth of the JavaScript
`extractPayloadFromUnknown` on a value: structural size plus the length of
every string (a `JSON.parse` re-entry always works on a strictly shorter
string, so this weight is a sound fuel bound). -/
def jsonWeight : Json → Nat
  | .str s => s.length + 1
  | .arr elems => jsonWeightList elems + 1
  | .obj fields => jsonWeightFields fields + 1
  | _ => 1

/-- Weight of array elements. -/
def jsonWeightList : List Json → Nat
  | [] => 0
  | j :: rest => jsonWeight j + jsonWeightList rest

/-- Weight of object members. -/
def jsonWeightFields : List (String × Json) → Nat
  | [] => 0
  | (_, v) :: rest => jsonWeight v + jsonWeightFields rest

end

/-- `extractPayloadFromUnknown` of Agent.tsx (lines 702-729), with the
re-entrant `JSON.parse` branch bounded by explicit fuel: strings that look
like object/array literals are parsed and re-inspected, then the direct
candidate is tried, then object/array members depth-first in order. -/
def extractPayloadFromUnknownFuel : Nat → Json → Option GenerateInterviewPayload
  | 0, _ => none
  | fuel + 1, value =>
    let fromParse : Option GenerateInterviewPayload :=
      match value with
      | .str s =>
        let trimmed := jsTrim s
        if (jsStartsWith trimmed "\x7b" && jsEndsWith trimmed "\x7d") ||
            (jsStartsWith trimmed "[" && jsEndsWith trimmed "]") then
          match jsonParse trimmed with
          | some parsed => extractPayloadFromUnknownFuel fuel parsed
          | none => none
        else none
      | _ => none
    match fromParse with
    | some payload => some payload
    | none =>
      match toGeneratePayload value with
      | some direct => some direct
      | none =>
        match value with
        | .obj fields => (fields.map (·.2)).findSome? (extractPayloadFromUnknownFuel fuel)
        | .arr elems => elems.findSome? (extractPayloadFromUnknownFuel fuel)
        | _ => none

/-- `extractPayloadFromUnknown` at its sound fuel bound. -/
def extractPayloadFromUnknown (value : Json) : Option GenerateInterviewPayload :=
  extractPayloadFromUnknownFuel (jsonWeight value + 1) value

/-- `extractPayloadFromMessage` of Agent.tsx (lines 731-767): the message
body itself, its generic `payload`/`data`/`content`/`message` members,
then function-call arguments and function-call-result output, in that
order; the first candidate wins.  A non-object, non-array message is
rejected; an array message passes the JavaScript `typeof` guard and is
inspected as the first candidate. -/
def extractPayloadFromMessage (message : Json) : Option GenerateInterviewPayload :=
  match message with
  | .obj source =>
    let functionCall :=
      match jLookup source "functionCall" with
      | some v => if isObjLike v then some v else none
      | none => none
    let functionCallResult :=
      match jLookup source "functionCallResult" with
      | some v => if isObjLike v then some v else none
      | none => none
    let candidates : List (Option Json) :=
      [some (Json.obj source),
       jLookup source "payload", jLookup source "data",
       jLookup source "content", jLookup source "message",
       functionCall,
       functionCall.bind (jGet · "parameters"),
       functionCall.bind (jGet · "arguments"),
       functionCall.bind (jGet · "payload"),
       functionCallResult,
       functionCallResult.bind (jGet · "result"),
       functionCallResult.bind (jGet · "output"),
       functionCallResult.bind (jGet · "payload")]
    candidates.findSome? (fun candidate => candidate.bind extractPayloadFromUnknown)
  | .arr elems => extractPayloadFromUnknown (.arr elems)
  | _ => none

/-- `isMeetingEndedEjection` of Agent.tsx: `undefined` and the empty
string are falsy and rejected, otherwise a case-insensitive containment
test against the two known ejection phrases. -/
def isMeetingEndedEjection (message : Option String) : Bool :=
  match message with
  | none => false
  | some m =>
    if m = "" then false
    else
      let lower := jsLower m
      strContains lower "meeting ended due to ejection" ||
        strContains lower "meeting has ended"

/-- An apostrophe, kept out of string literals. -/
def apos : String := String.singleton (Char.ofNat 39)

/-- The fixed closing-phrase list of `isGenerateClosingPhrase`. -/
def generateClosingPhrases : List String :=
  ["thank you", "thanks", "thankyou", "bye", "goodbye", "see you",
   "that" ++ apos ++ "s all", "thats all", "done"]

/-- `isGenerateClosingPhrase` of Agent.tsx. -/
def isGenerateClosingPhrase (text : Option String) : Bool :=
  match text with
  | none => false
  | some t =>
    if t = "" then false
    else
      let normalized := jsTrim (jsLower t)
      generateClosingPhrases.any (fun phrase => strContains normalized phrase)

/-- `extractErrorMessage` of Agent.tsx (lines 796-821), fuelled for the
structural recursion into the `message`/`errorMsg`/`reason`/`details`/
`error` members.  The `value instanceof Error` branch has no counterpart
in the `Json` domain. -/
def extractErrorMessageFuel : Nat → Json → String
  | 0, _ => ""
  | fuel + 1, value =>
    match value with
    | .str s => s
    | .obj source =>
      let candidates :=
        [jLookup source "message", jLookup source "errorMsg",
         jLookup source "reason", jLookup source "details", jLookup source "error"]
      match candidates.findSome? (fun candidate =>
          candidate.bind (fun v =>
            let m := extractErrorMessageFuel fuel v
            if m ≠ "" then some m else none)) with
      | some m => m
      | none =>
        let serialized := jsonStringify value
        if serialized = "\x7b\x7d" then "" else serialized
    | .arr elems =>
      let serialized := jsonStringify (.arr elems)
      if serialized = "\x7b\x7d" then "" else serialized
    | _ => ""

/-- `extractErrorMessage` at its fuel bound. -/
def extractErrorMessage (value : Json) : String :=
  extractErrorMessageFuel (jsonWeight value + 1) value

/-- The `message` component of `getErrorDetails` of Agent.tsx for
`Json`-domain errors: recursive message extraction with a
`JSON.stringify` fallback for objects, `String(error)` otherwise. -/
def getErrorDetailsMessage (error : Json) : String :=
  if isObjLike error then
    let m := extractErrorMessage error
    if m = "" then jsonStringify error else m
  else jsToString error

/-- `hasCompleteInterviewPayload` of Agent.tsx (lines 874-890): the
generation-mode completeness predicate.  It is a pure function of the
payload structure; note that it requires a positive numeric `amount` and
ignores the `questions` field. -/
def hasCompleteInterviewPayload (payload : Option GenerateInterviewPayload) : Bool :=
  match payload with
  | none => false
  | some payload =>
    let role := jsLower (jsTrim payload.role)
    if role = "" || RESERVED_MESSAGE_ROLES.contains role then false
    else
      match payload.level with
      | none => false
      | some levelRaw =>
        if jsTrim levelRaw = "" then false
        else
          let hasTechstack :=
            match payload.techstack with
            | some (.list l) => decide (l.length > 0)
            | some (.str s) => decide ((jsTrim s).length > 0)
            | none => false
          let hasAmount :=
            match payload.amount with
            | some a => decide (0 < a)
            | none => false
          hasTechstack && hasAmount

/-- `CallStatus` of Agent.tsx. -/
inductive CallStatus where
  | inactive
  | connecting
  | active
  | finished
deriving Repr, DecidableEq, Inhabited

/-- `SavedMessage` of Agent.tsx: one final transcript line. -/
structure SavedMessage where
  role : String
  content : String
deriving Repr, DecidableEq, Inhabited

/-- The component's `type` prop: `"generate"` versus the scripted
interview mode. -/
inductive Mode where
  | generate
  | interview
deriving Repr, DecidableEq

/-- The session-scoped mutable data of the Agent component: React state
(`callStatus`, `messages`, `generatedPayload`, `isSpeaking`,
`isGeneratingInterview`) and the refs (`suppressFinishRef`,
`autoStopTriggeredRef`, `endingGenerateCallRef`, `hasUserSpokenRef`,
`lastEjectionToastAtRef`, `lastUserTranscriptAtRef`).  The payload ref
and payload state always carry the same value, so one field models both;
`lastEjectionToastAt`/`lastUserTranscriptAt` use `0` for their initial
`0`/`null` values. -/
structure AgentState where
  status : CallStatus
  messages : List SavedMessage
  generatedPayload : Option GenerateInterviewPayload
  isSpeaking : Bool
  isGeneratingInterview : Bool
  suppressFinish : Bool
  autoStopTriggered : Bool
  endingGenerateCall : Bool
  hasUserSpoken : Bool
  lastEjectionToastAt : Nat
  lastUserTranscriptAt : Nat
deriving Repr, DecidableEq, Inhabited

/-- The component's state at mount. -/
def initialAgentState : AgentState :=
  { status := .inactive, messages := [], generatedPayload := none,
    isSpeaking := false, isGeneratingInterview := false,
    suppressFinish := false, autoStopTriggered := false,
    endingGenerateCall := false, hasUserSpoken := false,
    lastEjectionToastAt := 0, lastUserTranscriptAt := 0 }

/-- Externally observable actions emitted while handling one event:
toasts, transport commands, and the two completion collaborator calls.
`armAutoStop` marks the body of `completeGenerationFlow` executing,
`autoStopExec` the body of `endGenerateCallAndContinue`, and
`completionDispatch` the `FINISHED` effect invoking its mode branch. -/
inductive Action where
  | toastEjection
  | toastNotCaptured
  | toastGenericError
  | armAutoStop
  | autoStopExec
  | vapiStopReq
  | enterFinished
  | completionDispatch
  | saveCall (payload : GenerateInterviewPayload)
  | feedbackCall (transcript : List SavedMessage)
deriving Repr, DecidableEq

/-- `resetCallState` of Agent.tsx: microphone released (not modelled
further), status back to Inactive, speaking indicator off. -/
def resetCallState (s : AgentState) : AgentState :=
  { s with status := .inactive, isSpeaking := false }

/-- `runInterviewGeneration` of Agent.tsx (lines 973-1007), run to
completion: the re-entrancy guard, the completeness validation with its
"not captured" notice, the persistence call, and the `finally` block
that resets the call state.  The network response handling (success
toast, navigation, failure toast) concerns only external navigation and
is not part of the session state. -/
def runInterviewGeneration (s : AgentState) : AgentState × List Action :=
  if s.isGeneratingInterview then (s, [])
  else
    let payloadReady := s.generatedPayload
    if !hasCompleteInterviewPayload payloadReady then
      (resetCallState s, [.toastNotCaptured])
    else
      match payloadReady with
      | some payload => (resetCallState s, [.saveCall payload])
      | none => (resetCallState s, [.toastNotCaptured])

/-- The `callStatus === FINISHED` effect body (lines 1241-1247): the
generation flow in generate mode, the feedback call in interview mode. -/
def dispatchFinished (mode : Mode) (s : AgentState) : AgentState × List Action :=
  match mode with
  | .generate =>
    let r := runInterviewGeneration s
    (r.1, .completionDispatch :: r.2)
  | .interview => (s, [.completionDispatch, .feedbackCall s.messages])

/-- `onCallStart` of Agent.tsx (lines 1080-1089): the per-session guard
refs and the captured payload are reset and the status becomes Active.
The transcript log and the two timestamp refs are NOT reset here. -/
def onCallStart (s : AgentState) : AgentState × List Action :=
  ({ s with suppressFinish := false, autoStopTriggered := false,
            endingGenerateCall := false, hasUserSpoken := false,
            generatedPayload := none, status := .active }, [])

/-- `onCallEnd` of Agent.tsx (lines 1091-1109).  `callStatusRef` holds the
handler-entry status. -/
def onCallEnd (mode : Mode) (s : AgentState) : AgentState × List Action :=
  if s.suppressFinish then
    let s' := { s with suppressFinish := false }
    if mode = .generate ∧ s.autoStopTriggered then
      ({ s' with status := .finished }, [])
    else (resetCallState s', [])
  else if s.status = .inactive then (s, [])
  else ({ s with status := .finished }, [])

/-- `handleEjectionGracefully` of Agent.tsx (lines 907-931): phrase match,
suppress guard, cooldown-deduplicated notice, then mode-dependent
teardown (Finished in generate mode, Inactive otherwise).  Returns
whether the message was recognized. -/
def handleEjectionGracefully (mode : Mode) (now : Nat) (s : AgentState)
    (message : String) : Bool × AgentState × List Action :=
  if !isMeetingEndedEjection (some message) then (false, s, [])
  else
    let s1 := { s with suppressFinish := true }
    let (s2, acts) :=
      if now - s1.lastEjectionToastAt > 1500 then
        ({ s1 with lastEjectionToastAt := now }, [Action.toastEjection])
      else (s1, [])
    if mode = .generate then
      (true, { s2 with isSpeaking := false, status := .finished }, acts)
    else
      (true, resetCallState s2, acts)

/-- `onError` of Agent.tsx (lines 1174-1187). -/
def onError (mode : Mode) (now : Nat) (s : AgentState) (error : Json) :
    AgentState × List Action :=
  let message := getErrorDetailsMessage error
  let r := handleEjectionGracefully mode now s message
  if r.1 then (r.2.1, r.2.2)
  else (resetCallState s, [.toastGenericError])

/-- `completeGenerationFlow` of Agent.tsx (lines 1040-1056): arms the
auto-stop once, gated on generate mode, the Active status (as seen by
`callStatusRef` at handler entry) and the user having spoken. -/
def completeGenerationFlow (mode : Mode) (refStatus : CallStatus) (s : AgentState) :
    AgentState × List Action :=
  if mode ≠ .generate ∨ s.autoStopTriggered ∨ refStatus ≠ .active then (s, [])
  else if !s.hasUserSpoken then (s, [])
  else ({ s with autoStopTriggered := true }, [.armAutoStop])

/-- `endGenerateCallAndContinue` of Agent.tsx (lines 1058-1078): executes
the armed auto-stop once, suppressing the transport's own end signal,
forcing Finished and requesting the transport to stop. -/
def endGenerateCallAndContinue (mode : Mode) (refStatus : CallStatus) (s : AgentState) :
    AgentState × List Action :=
  if mode ≠ .generate ∨ ¬s.autoStopTriggered ∨ refStatus ≠ .active ∨
      s.endingGenerateCall then (s, [])
  else
    ({ s with endingGenerateCall := true, suppressFinish := true, status := .finished },
      [.autoStopExec, .vapiStopReq])

/-- The extraction tail of `onMessage` (lines 1144-1161): a candidate
replaces the captured payload (ref and state), and a complete candidate
tries to arm the auto-stop. -/
def onMessageExtraction (mode : Mode) (refStatus : CallStatus) (s : AgentState)
    (message : Json) : AgentState × List Action :=
  match extractPayloadFromMessage message with
  | none => (s, [])
  | some payload =>
    let s1 := { s with generatedPayload := some payload }
    if hasCompleteInterviewPayload (some payload) then
      completeGenerationFlow mode refStatus s1
    else (s1, [])

/-- `onMessage` of Agent.tsx (lines 1111-1162): the transcript branch
(idle timestamp, user-spoken flag, final-only transcript log append,
closing-phrase auto-stop), with a non-final transcript returning before
the extraction tail runs. -/
def onMessage (mode : Mode) (now : Nat) (s : AgentState) (message : Json) :
    AgentState × List Action :=
  let refStatus := s.status
  if jFieldIs message "type" "transcript" then
    let isUser := jFieldIs message "role" "user"
    let isFinal := jFieldIs message "transcriptType" "final"
    let s1 :=
      if isUser then
        { s with lastUserTranscriptAt := now,
                 hasUserSpoken := if isFinal then true else s.hasUserSpoken }
      else s
    if !isFinal then (s1, [])
    else
      let roleStr := match jGet message "role" with | some (.str r) => r | _ => ""
      let transcriptStr := match jGet message "transcript" with | some (.str t) => t | _ => ""
      let s2 := { s1 with messages := s1.messages ++ [⟨roleStr, transcriptStr⟩] }
      let r3 :=
        if isUser && (mode == .generate) && s2.autoStopTriggered &&
            isGenerateClosingPhrase (some transcriptStr) then
          endGenerateCallAndContinue mode refStatus s2
        else (s2, [])
      let r4 := onMessageExtraction mode refStatus r3.1 message
      (r4.1, r3.2 ++ r4.2)
  else
    onMessageExtraction mode refStatus s message

/-- A transport or UI event consumed by the component, with the wall-clock
reading where the handler takes one. -/
inductive AgentEvent where
  | callStart
  | callEnd
  | message (body : Json) (now : Nat)
  | errorEvt (error : Json) (now : Nat)
  | disconnectClick
deriving Repr

/-- One registered handler firing, before React effects run. -/
def handleEvent (mode : Mode) (s : AgentState) : AgentEvent → AgentState × List Action
  | .callStart => onCallStart s
  | .callEnd => onCallEnd mode s
  | .message body now => onMessage mode now s body
  | .errorEvt error now => onError mode now s error
  | .disconnectClick => ({ s with status := .connecting }, [.vapiStopReq])

/-- One event processed to quiescence: the handler, then the `FINISHED`
completion effect, which React runs when its dependencies (status,
transcript log, captured payload) changed and the status is Finished.  A
status set to its current value does not re-render and so does not
re-fire the effect. -/
def stepEvent (mode : Mode) (s : AgentState) (e : AgentEvent) : AgentState × List Action :=
  let r1 := handleEvent mode s e
  let entered : List Action :=
    if r1.1.status = .finished ∧ s.status ≠ .finished then [.enterFinished] else []
  if r1.1.status = .finished ∧
      (s.status ≠ r1.1.status ∨ s.messages ≠ r1.1.messages ∨
        s.generatedPayload ≠ r1.1.generatedPayload) then
    let r2 := dispatchFinished mode r1.1
    (r2.1, r1.2 ++ entered ++ r2.2)
  else (r1.1, r1.2 ++ entered)

/-- A whole event sequence processed in arrival order, accumulating the
emitted actions. -/
def runAgent (mode : Mode) (s : AgentState) (events : List AgentEvent) :
    AgentState × List Action :=
  match events with
  | [] => (s, [])
  | e :: rest =>
    let r1 := stepEvent mode s e
    let r2 := runAgent mode r1.1 rest
    (r2.1, r1.2 ++ r2.2)

/-- State of the idle watchdog effect (lines 1206-1221) during one Active
period: the capture of `Date.now()` at effect start, the value of
`lastUserTranscriptAtRef` (0 models its initial `null`, and the ref is
never reset, so the carried-over value of a previous session persists),
whether `clearInterval` ran, and how many "cannot hear you" notices were
raised. -/
structure WatchState where
  startedAt : Nat
  lastHeard : Nat
  cleared : Bool
  noticeCount : Nat
deriving Repr, DecidableEq

/-- Watchdog-relevant occurrences during one Active period: an interval
tick (the cadence is every 5000 ms) or a user transcript of any
`transcriptType` (the `onMessage` branch at lines 1119-1121 refreshes
`lastUserTranscriptAtRef` for interim and final user transcripts
alike). -/
inductive WatchEvent where
  | tick (now : Nat)
  | heard (now : Nat)
deriving Repr, DecidableEq

/-- One watchdog occurrence: a tick compares the idle time against the
20000 ms bound, raises the notice and clears the interval; a user
transcript refreshes the timestamp. -/
def watchStep (w : WatchState) : WatchEvent → WatchState
  | .heard now => { w with lastHeard := now }
  | .tick now =>
    if w.cleared then w
    else
      let idleMs := if w.lastHeard ≠ 0 then now - w.lastHeard else now - w.startedAt
      if idleMs > 20000 then { w with noticeCount := w.noticeCount + 1, cleared := true }
      else w

/-- A whole Active period of the watchdog, processed in time order.  The
effect cleanup on leaving Active is modelled by the list ending. -/
def watchdogRun (startedAt lastHeard0 : Nat) (events : List WatchEvent) : WatchState :=
  events.foldl watchStep
    { startedAt := startedAt, lastHeard := lastHeard0, cleared := false, noticeCount := 0 }

/-- Count of actions satisfying a predicate in an emitted action list. -/
def countActs (p : Action → Bool) (acts : List Action) : Nat :=
  acts.countP p

/-- The final-transcript lines a single event contributes to the log. -/
def finalTranscriptOfEvent : AgentEvent → List SavedMessage
  | .message body _ =>
    if jFieldIs body "type" "transcript" && jFieldIs body "transcriptType" "final" then
      [⟨(match jGet body "role" with | some (.str r) => r | _ => ""),
        (match jGet body "transcript" with | some (.str t) => t | _ => "")⟩]
    else []
  | _ => []

/-- The final-transcript lines of an event sequence, in arrival order. -/
def finalTranscriptsOf (events : List AgentEvent) : List SavedMessage :=
  events.flatMap finalTranscriptOfEvent

/-- Is an action the arming of the auto-stop? -/
def isArmAction : Action → Bool
  | .armAutoStop => true
  | _ => false

/-- Is an action the execution of the auto-stop? -/
def isExecAction : Action → Bool
  | .autoStopExec => true
  | _ => false

/-- Is an action the completion dispatch? -/
def isDispatchAction : Action → Bool
  | .completionDispatch => true
  | _ => false

/-- Is an action the ejection notice? -/
def isEjectionToastAction : Action → Bool
  | .toastEjection => true
  | _ => false

/-- Is an action a feedback-collaborator call? -/
def isFeedbackAction : Action → Bool
  | .feedbackCall _ => true
  | _ => false

/-- Is an action a persistence-collaborator call? -/
def isSaveAction : Action → Bool
  | .saveCall _ => true
  | _ => false

/-- Is an event the transport's session-started signal? -/
def isCallStartEvent : AgentEvent → Bool
  | .callStart => true
  | _ => false

/-! ## Shared structural lemmas about the handlers -/

theorem resetCallState_generatedPayload (s : AgentState) :
    (resetCallState s).generatedPayload = s.generatedPayload := rfl

theorem runInterviewGeneration_generatedPayload (s : AgentState) :
    (runInterviewGeneration s).1.generatedPayload = s.generatedPayload := by
  unfold runInterviewGeneration
  dsimp only
  repeat' split
  all_goals rfl

theorem dispatchFinished_generatedPayload (mode : Mode) (s : AgentState) :
    (dispatchFinished mode s).1.generatedPayload = s.generatedPayload := by
  cases mode <;> simp [dispatchFinished, runInterviewGeneration_generatedPayload]

theorem completeGenerationFlow_generatedPayload (mode : Mode) (refStatus : CallStatus)
    (s : AgentState) :
    (completeGenerationFlow mode refStatus s).1.generatedPayload = s.generatedPayload := by
  unfold completeGenerationFlow
  repeat' split
  all_goals rfl

theorem endGenerateCallAndContinue_generatedPayload (mode : Mode) (refStatus : CallStatus)
    (s : AgentState) :
    (endGenerateCallAndContinue mode refStatus s).1.generatedPayload = s.generatedPayload := by
  unfold endGenerateCallAndContinue
  repeat' split
  all_goals rfl

theorem onMessageExtraction_payload_of_some (mode : Mode) (refStatus : CallStatus)
    (s : AgentState) (body : Json) (p : GenerateInterviewPayload)
    (hex : extractPayloadFromMessage body = some p) :
    (onMessageExtraction mode refStatus s body).1.generatedPayload = some p := by
  unfold onMessageExtraction
  rw [hex]
  dsimp only
  split
  · rw [completeGenerationFlow_generatedPayload]
  · rfl

theorem onMessage_payload_of_some (mode : Mode) (now : Nat) (s : AgentState) (body : Json)
    (p : GenerateInterviewPayload)
    (hskip : ¬(jFieldIs body "type" "transcript" = true ∧
        jFieldIs body "transcriptType" "final" = false))
    (hex : extractPayloadFromMessage body = some p) :
    (onMessage mode now s body).1.generatedPayload = some p := by
  unfold onMessage
  dsimp only
  split
  case isTrue htr =>
    have hfin : jFieldIs body "transcriptType" "final" = true := by
      cases h : jFieldIs body "transcriptType" "final"
      · exact absurd ⟨htr, h⟩ hskip
      · rfl
    simp only [hfin, Bool.not_true, Bool.false_eq_true, if_false]
    split
    · rw [onMessageExtraction_payload_of_some _ _ _ _ _ hex]
    · rw [onMessageExtraction_payload_of_some _ _ _ _ _ hex]
  case isFalse =>
    exact onMessageExtraction_payload_of_some _ _ _ _ _ hex

/-! ## The claims -/

/-- C1, counterexample.  The claim asserts a per-field additive merge in
which a previously captured non-empty field is never blanked by a later
candidate that leaves the field empty.  On the code, after the session
start a first workflow message captures `level = "Senior"`; a second
message whose candidate carries only a role (`jobRole`) then replaces the
whole captured specification, and the previously non-empty `level` field
becomes empty. -/
theorem C1_counterexample :
    ((stepEvent .generate (stepEvent .generate initialAgentState .callStart).1
        (.message (.obj [("jobRole", .str "Backend Engineer"), ("level", .str "Senior")]) 100)).1.generatedPayload.map
      (fun q => q.level) = some (some "Senior")) ∧
    ((stepEvent .generate
        (stepEvent .generate (stepEvent .generate initialAgentState .callStart).1
          (.message (.obj [("jobRole", .str "Backend Engineer"), ("level", .str "Senior")]) 100)).1
        (.message (.obj [("jobRole", .str "DevOps")]) 200)).1.generatedPayload.map
      (fun q => q.level) = some none) := by decide

/-- C1, amended: merging is not per-field.  Whenever a message yields an
extraction candidate (and the message is not an interim transcript, which
returns before the extraction tail), the candidate replaces the captured
specification wholesale: a previously captured non-empty field survives
only if the newer candidate itself carries a non-empty value for it. -/
theorem C1_later_candidate_replaces_specification (mode : Mode) (now : Nat)
    (s : AgentState) (body : Json) (p : GenerateInterviewPayload)
    (hskip : ¬(jFieldIs body "type" "transcript" = true ∧
        jFieldIs body "transcriptType" "final" = false))
    (hex : extractPayloadFromMessage body = some p) :
    (stepEvent mode s (.message body now)).1.generatedPayload = some p := by
  unfold stepEvent handleEvent
  dsimp only
  split
  · rw [dispatchFinished_generatedPayload]
    exact onMessage_payload_of_some mode now s body p hskip hex
  · exact onMessage_payload_of_some mode now s body p hskip hex

/-- C1, witness for the amended theorem at a concrete message. -/
theorem C1_later_candidate_replaces_specification_witness :
    (stepEvent .generate initialAgentState
        (.message (.obj [("jobRole", .str "DevOps")]) 42)).1.generatedPayload =
      some { role := "DevOps", level := none, type := none, techstack := none,
             amount := none, questions := none } :=
  C1_later_candidate_replaces_specification .generate 42 initialAgentState
    (.obj [("jobRole", .str "DevOps")]) _ (by decide) (by decide)

/-- C2: the generation-mode completeness predicate is false whenever the
technology stack is absent, or the question count and question list are
both absent, whatever the other fields hold; the predicate is a pure
function of the payload structure (its Lean type takes only the payload,
and it requires a positive `amount` — the question list alone never makes
it true). -/
theorem C2_completeness_requires_stack_and_count (p : GenerateInterviewPayload)
    (h : p.techstack = none ∨ (p.amount = none ∧ p.questions = none)) :
    hasCompleteInterviewPayload (some p) = false := by
  unfold hasCompleteInterviewPayload
  rcases h with h | ⟨h, _⟩ <;> simp only [h] <;>
    repeat' first
      | rfl
      | split <;> try simp_all

/-- C2, witness: role, level and type all present, technology stack
absent. -/
theorem C2_completeness_requires_stack_and_count_witness :
    hasCompleteInterviewPayload
        (some { role := "Backend", level := some "Senior", type := some "technical",
                techstack := none, amount := some 5,
                questions := some (.list ["q1"]) }) = false :=
  C2_completeness_requires_stack_and_count _ (Or.inl rfl)

/-- C5, counterexample.  The claim asserts that the primary aliases
`role` and `type` themselves count as recognized keys; on the code the
`hasInterviewSpecificKeys` guard does not test them, so an object whose
only keys are `role` or `type` is rejected on exactly the
no-recognized-key ground. -/
theorem C5_counterexample :
    toGeneratePayload (.obj [("role", .str "Engineer")]) = none ∧
    toGeneratePayload (.obj [("type", .str "technical")]) = none ∧
    hasInterviewSpecificKeys [("role", .str "Engineer")] = false ∧
    hasInterviewSpecificKeys [("type", .str "technical")] = false := by
  exact ⟨by decide, by decide, by decide, by decide⟩

/-- C5, amended: the extractor returns no candidate for any object in
which none of the recognized keys is present, where the recognized keys
are the secondary aliases listed in `interviewSpecificKeys` — the primary
aliases `role` and `type` are not among them; conversely an object with
at least one recognized key passes the no-recognized-key guard. -/
theorem C5_no_recognized_key_yields_none :
    (∀ fields : List (String × Json),
       (∀ k ∈ interviewSpecificKeys, hasKey fields k = false) →
       toGeneratePayload (.obj fields) = none) ∧
    (∀ fields : List (String × Json), ∀ k ∈ interviewSpecificKeys,
       hasKey fields k = true → hasInterviewSpecificKeys fields = true) := by
  constructor
  · intro fields h
    have hk : hasInterviewSpecificKeys fields = false := by
      unfold hasInterviewSpecificKeys
      simp only [List.any_eq_false]
      intro k hmem
      simpa using h k hmem
    unfold toGeneratePayload
    simp [hk]
  · intro fields k hmem h
    unfold hasInterviewSpecificKeys
    simp only [List.any_eq_true]
    exact ⟨k, hmem, h⟩

/-- C5, witness for both conjuncts at concrete objects. -/
theorem C5_no_recognized_key_yields_none_witness :
    toGeneratePayload (.obj [("chatter", .str "hello")]) = none ∧
    hasInterviewSpecificKeys [("level", .str "Senior")] = true :=
  ⟨C5_no_recognized_key_yields_none.1 [("chatter", .str "hello")] (by decide),
   C5_no_recognized_key_yields_none.2 [("level", .str "Senior")] "level" (by decide) (by decide)⟩

/-- C6, counterexample.  The claim asserts that numbered question fields
are concatenated in ascending numeric order of their field names; the
code concatenates them in `Object.entries` order (insertion order for
such keys) without sorting, so `question2` before `question1` yields the
reversed list. -/
theorem C6_counterexample :
    readQuestionsValue
        [("question2", .str "B"), ("question1", .str "A"), ("questions", .arr [.str "X"])]
      = some (.list ["B", "A"]) ∧
    readQuestionsValue
        [("question2", .str "B"), ("question1", .str "A"), ("questions", .arr [.str "X"])]
      ≠ some (.list ["A", "B"]) := by
  exact ⟨by decide, by decide⟩

/-- C6, amended: when numbered question fields are present (with at least
one usable value), extraction prefers them over any aggregate
question-list field and concatenates them in the order the fields appear
in the object, not in ascending numeric order. -/
theorem C6_numbered_preferred_in_entry_order (source : List (String × Json))
    (h : numberedQuestionsOf source ≠ []) :
    readQuestionsValue source = some (.list (numberedQuestionsOf source)) := by
  unfold readQuestionsValue
  simp [h]

/-- C6, witness: one numbered field next to an aggregate field. -/
theorem C6_numbered_preferred_in_entry_order_witness :
    readQuestionsValue [("question1", .str "A"), ("questions", .str "agg")]
      = some (.list ["A"]) :=
  C6_numbered_preferred_in_entry_order
    [("question1", .str "A"), ("questions", .str "agg")] (by decide)

/-- C10: the completeness predicate is false for every payload whose
experience level is absent or blank, whatever role, technology stack and
question count hold; consequently a generate-mode session whose captured
payload lacks a level ends (on the session-ended signal) with the "not
captured" notice, no persistence call, and the Inactive status. -/
theorem C10_level_required :
    (∀ p : GenerateInterviewPayload,
       (p.level = none ∨ ∃ l, p.level = some l ∧ jsTrim l = "") →
       hasCompleteInterviewPayload (some p) = false) ∧
    (∀ (s : AgentState) (p : GenerateInterviewPayload),
       s.status = .active → s.suppressFinish = false →
       s.isGeneratingInterview = false → s.generatedPayload = some p →
       (p.level = none ∨ ∃ l, p.level = some l ∧ jsTrim l = "") →
       Action.toastNotCaptured ∈ (stepEvent .generate s .callEnd).2 ∧
       countActs isSaveAction (stepEvent .generate s .callEnd).2 = 0 ∧
       (stepEvent .generate s .callEnd).1.status = .inactive) := by
  have hpred : ∀ p : GenerateInterviewPayload,
      (p.level = none ∨ ∃ l, p.level = some l ∧ jsTrim l = "") →
      hasCompleteInterviewPayload (some p) = false := by
    intro p h
    unfold hasCompleteInterviewPayload
    rcases h with h | ⟨l, h, hl⟩ <;> simp only [h] <;>
      repeat' first
        | rfl
        | split <;> try simp_all
  refine ⟨hpred, ?_⟩
  intro s p hst hsup hgen hpay hlev
  have hcomp : hasCompleteInterviewPayload s.generatedPayload = false := by
    rw [hpay]; exact hpred p hlev
  simp [stepEvent, handleEvent, onCallEnd, dispatchFinished, runInterviewGeneration,
        resetCallState, countActs, isSaveAction, hsup, hst, hgen, hcomp]

/-- C10, witness: a payload with role, stack and amount present but a
blank level is rejected, and the corresponding session ends with the
notice, no save and the Inactive status. -/
theorem C10_level_required_witness :
    hasCompleteInterviewPayload
        (some { role := "Backend", level := some " ", type := some "technical",
                techstack := some (.list ["Go"]), amount := some 5,
                questions := none }) = false ∧
    (Action.toastNotCaptured ∈
        (stepEvent .generate
          { initialAgentState with
              status := .active
              generatedPayload := some { role := "Backend", level := some " ",
                                         type := some "technical",
                                         techstack := some (.list ["Go"]),
                                         amount := some 5, questions := none } } .callEnd).2 ∧
     countActs isSaveAction
        (stepEvent .generate
          { initialAgentState with
              status := .active
              generatedPayload := some { role := "Backend", level := some " ",
                                         type := some "technical",
                                         techstack := some (.list ["Go"]),
                                         amount := some 5, questions := none } } .callEnd).2 = 0 ∧
     (stepEvent .generate
          { initialAgentState with
              status := .active
              generatedPayload := some { role := "Backend", level := some " ",
                                         type := some "technical",
                                         techstack := some (.list ["Go"]),
                                         amount := some 5, questions := none } } .callEnd).1.status = .inactive) :=
  ⟨C10_level_required.1 _ (Or.inr ⟨" ", rfl, by decide⟩),
   C10_level_required.2 _ _ rfl rfl rfl rfl (Or.inr ⟨" ", rfl, by decide⟩)⟩

/-- C9: with no suppress guard set, a session-ended signal while
Connecting transitions to Finished and fires the completion dispatch (the
session was never Active); the signal leaves the state untouched exactly
when the status is already Inactive; and the user-disconnect path first
moves the status to Connecting and requests the transport to stop, after
which the resulting session-ended signal produces the Finished
completion. -/
theorem C9_end_while_connecting_finishes :
    (∀ (mode : Mode) (s : AgentState),
       s.status = .connecting → s.suppressFinish = false →
       Action.enterFinished ∈ (stepEvent mode s .callEnd).2 ∧
       Action.completionDispatch ∈ (stepEvent mode s .callEnd).2) ∧
    (∀ (mode : Mode) (s : AgentState),
       s.status = .inactive → s.suppressFinish = false →
       stepEvent mode s .callEnd = (s, [])) ∧
    (∀ (mode : Mode) (s : AgentState),
       s.suppressFinish = false →
       (stepEvent mode s .disconnectClick).1.status = .connecting ∧
       Action.vapiStopReq ∈ (stepEvent mode s .disconnectClick).2 ∧
       Action.enterFinished ∈
         (stepEvent mode (stepEvent mode s .disconnectClick).1 .callEnd).2 ∧
       Action.completionDispatch ∈
         (stepEvent mode (stepEvent mode s .disconnectClick).1 .callEnd).2) := by
  have hpart1 : ∀ (mode : Mode) (s : AgentState),
      s.status = .connecting → s.suppressFinish = false →
      Action.enterFinished ∈ (stepEvent mode s .callEnd).2 ∧
      Action.completionDispatch ∈ (stepEvent mode s .callEnd).2 := by
    intro mode s hst hsup
    cases mode <;>
      simp [stepEvent, handleEvent, onCallEnd, dispatchFinished, runInterviewGeneration,
            resetCallState, hsup, hst]
  refine ⟨hpart1, ?_, ?_⟩
  · intro mode s hst hsup
    simp [stepEvent, handleEvent, onCallEnd, hsup, hst]
  · intro mode s hsup
    have hstep : stepEvent mode s .disconnectClick =
        ({ s with status := .connecting }, [Action.vapiStopReq]) := by
      simp [stepEvent, handleEvent]
    refine ⟨by rw [hstep], by rw [hstep]; simp, ?_, ?_⟩
    · exact (hpart1 mode _ (by rw [hstep]) (by rw [hstep]; exact hsup)).1
    · exact (hpart1 mode _ (by rw [hstep]) (by rw [hstep]; exact hsup)).2

/-- C9, witness at a concrete Connecting state. -/
theorem C9_end_while_connecting_finishes_witness :
    (Action.enterFinished ∈
        (stepEvent .interview { initialAgentState with status := .connecting } .callEnd).2 ∧
     Action.completionDispatch ∈
        (stepEvent .interview { initialAgentState with status := .connecting } .callEnd).2) ∧
    stepEvent .interview initialAgentState .callEnd = (initialAgentState, []) ∧
    (stepEvent .interview initialAgentState .disconnectClick).1.status = .connecting :=
  ⟨C9_end_while_connecting_finishes.1 .interview _ rfl rfl,
   C9_end_while_connecting_finishes.2.1 .interview initialAgentState rfl rfl,
   (C9_end_while_connecting_finishes.2.2 .interview initialAgentState rfl).1⟩

/-- C4: a recognized ejection message while Active in interview mode
tears the session down to Inactive with no Finished transition, no
completion dispatch and no feedback call, and a second error channel
firing for the same root cause within the 1500 ms cooldown window adds no
second notice — exactly one ejection notice is shown; in generate mode
the same signal escalates the session to Finished, firing the completion
dispatch so the captured specification can still be saved. -/
theorem C4_ejection_paths :
    (∀ (s : AgentState) (err : Json) (t1 t2 : Nat),
       isMeetingEndedEjection (some (getErrorDetailsMessage err)) = true →
       s.status = .active →
       s.lastEjectionToastAt + 1500 < t1 → t1 ≤ t2 → t2 ≤ t1 + 1500 →
       countActs isEjectionToastAction
           (runAgent .interview s [.errorEvt err t1, .errorEvt err t2]).2 = 1 ∧
       countActs isFeedbackAction
           (runAgent .interview s [.errorEvt err t1, .errorEvt err t2]).2 = 0 ∧
       countActs isDispatchAction
           (runAgent .interview s [.errorEvt err t1, .errorEvt err t2]).2 = 0 ∧
       (runAgent .interview s [.errorEvt err t1, .errorEvt err t2]).1.status = .inactive) ∧
    (∀ (s : AgentState) (err : Json) (t : Nat),
       isMeetingEndedEjection (some (getErrorDetailsMessage err)) = true →
       s.status = .active →
       Action.enterFinished ∈ (stepEvent .generate s (.errorEvt err t)).2 ∧
       Action.completionDispatch ∈ (stepEvent .generate s (.errorEvt err t)).2) := by
  constructor
  · intro s err t1 t2 hmsg hst hc1 hle hc2
    have hcool1 : 1500 < t1 - s.lastEjectionToastAt := by omega
    have hcool2 : ¬(1500 < t2 - t1) := by omega
    simp [runAgent, stepEvent, handleEvent, onError, handleEjectionGracefully,
          resetCallState, countActs, isEjectionToastAction, isFeedbackAction,
          isDispatchAction, hmsg, hst, hcool1, hcool2]
  · intro s err t hmsg hst
    simp [stepEvent, handleEvent, onError, handleEjectionGracefully, dispatchFinished,
          runInterviewGeneration, resetCallState, hmsg, hst]

/-- C4, witness: a literal "Meeting has ended" error fired twice 1000 ms
apart while Active, in each mode. -/
theorem C4_ejection_paths_witness :
    (countActs isEjectionToastAction
        (runAgent .interview { initialAgentState with status := .active }
          [.errorEvt (.str "Meeting has ended") 2000,
           .errorEvt (.str "Meeting has ended") 3000]).2 = 1 ∧
     countActs isFeedbackAction
        (runAgent .interview { initialAgentState with status := .active }
          [.errorEvt (.str "Meeting has ended") 2000,
           .errorEvt (.str "Meeting has ended") 3000]).2 = 0 ∧
     countActs isDispatchAction
        (runAgent .interview { initialAgentState with status := .active }
          [.errorEvt (.str "Meeting has ended") 2000,
           .errorEvt (.str "Meeting has ended") 3000]).2 = 0 ∧
     (runAgent .interview { initialAgentState with status := .active }
          [.errorEvt (.str "Meeting has ended") 2000,
           .errorEvt (.str "Meeting has ended") 3000]).1.status = .inactive) ∧
    (Action.enterFinished ∈
        (stepEvent .generate { initialAgentState with status := .active }
          (.errorEvt (.str "Meeting has ended") 2000)).2 ∧
     Action.completionDispatch ∈
        (stepEvent .generate { initialAgentState with status := .active }
          (.errorEvt (.str "Meeting has ended") 2000)).2) :=
  ⟨C4_ejection_paths.1 _ _ 2000 3000 (by decide) rfl (by decide) (by decide) (by decide),
   C4_ejection_paths.2 _ _ 2000 (by decide) rfl⟩

theorem runInterviewGeneration_messages (s : AgentState) :
    (runInterviewGeneration s).1.messages = s.messages := by
  unfold runInterviewGeneration
  dsimp only
  repeat' split
  all_goals rfl

theorem dispatchFinished_messages (mode : Mode) (s : AgentState) :
    (dispatchFinished mode s).1.messages = s.messages := by
  cases mode <;> simp [dispatchFinished, runInterviewGeneration_messages]

theorem completeGenerationFlow_messages (mode : Mode) (r : CallStatus) (s : AgentState) :
    (completeGenerationFlow mode r s).1.messages = s.messages := by
  unfold completeGenerationFlow
  repeat' split
  all_goals rfl

theorem endGenerateCallAndContinue_messages (mode : Mode) (r : CallStatus) (s : AgentState) :
    (endGenerateCallAndContinue mode r s).1.messages = s.messages := by
  unfold endGenerateCallAndContinue
  repeat' split
  all_goals rfl

theorem onMessageExtraction_messages (mode : Mode) (r : CallStatus) (s : AgentState)
    (body : Json) :
    (onMessageExtraction mode r s body).1.messages = s.messages := by
  unfold onMessageExtraction
  repeat' split
  · rfl
  · rw [completeGenerationFlow_messages]
  · rfl

theorem handleEjectionGracefully_messages (mode : Mode) (now : Nat) (s : AgentState)
    (msg : String) :
    (handleEjectionGracefully mode now s msg).2.1.messages = s.messages := by
  unfold handleEjectionGracefully
  dsimp only
  repeat' split
  all_goals rfl

theorem onMessage_messages (mode : Mode) (now : Nat) (s : AgentState) (body : Json) :
    (onMessage mode now s body).1.messages =
      s.messages ++ finalTranscriptOfEvent (.message body now) := by
  unfold onMessage finalTranscriptOfEvent
  dsimp only
  cases htr : jFieldIs body "type" "transcript" <;>
    cases hfin : jFieldIs body "transcriptType" "final" <;>
      cases hu : jFieldIs body "role" "user" <;>
        simp only [htr, hfin, hu, Bool.not_true, Bool.not_false, Bool.false_eq_true,
          Bool.true_eq_false, if_true, if_false, ite_true, ite_false, Bool.true_and,
          Bool.false_and, Bool.and_true, Bool.and_false, List.append_nil,
          onMessageExtraction_messages] <;>
        try (split <;> simp only [endGenerateCallAndContinue_messages])

theorem handleEvent_messages (mode : Mode) (s : AgentState) (e : AgentEvent) :
    (handleEvent mode s e).1.messages = s.messages ++ finalTranscriptOfEvent e := by
  cases e with
  | callStart => simp [handleEvent, onCallStart, finalTranscriptOfEvent]
  | callEnd =>
    simp only [handleEvent, finalTranscriptOfEvent, List.append_nil]
    unfold onCallEnd
    repeat' split
    all_goals rfl
  | disconnectClick => simp [handleEvent, finalTranscriptOfEvent]
  | errorEvt err now =>
    simp only [handleEvent, finalTranscriptOfEvent, List.append_nil]
    unfold onError
    dsimp only
    split
    · rw [handleEjectionGracefully_messages]
    · rfl
  | message body now =>
    simp only [handleEvent]
    exact onMessage_messages mode now s body

theorem stepEvent_messages (mode : Mode) (s : AgentState) (e : AgentEvent) :
    (stepEvent mode s e).1.messages = s.messages ++ finalTranscriptOfEvent e := by
  unfold stepEvent
  dsimp only
  split
  · rw [dispatchFinished_messages, handleEvent_messages]
  · rw [handleEvent_messages]

/-- C8, counterexample.  The claim asserts the transcript log is cleared
at session start; on the code `onCallStart` resets the guard refs and the
captured payload but never clears `messages`, so a final utterance of a
previous session is still in the log after the next session-started
signal. -/
theorem C8_counterexample :
    (runAgent .interview initialAgentState
        [.callStart,
         .message (.obj [("type", .str "transcript"), ("role", .str "user"),
                         ("transcriptType", .str "final"),
                         ("transcript", .str "hello")]) 100,
         .callEnd, .callStart]).1.messages = [⟨"user", "hello"⟩] ∧
    ([⟨"user", "hello"⟩] : List SavedMessage) ≠ [] := by
  exact ⟨by decide, by decide⟩

/-- C8, amended: the transcript log accumulates exactly the final
utterances in arrival order (speaker role and text), with non-final
utterances excluded, but it is never cleared at session start: after any
event sequence the log equals the previous log extended by the sequence's
final utterances, so utterances of a previous session persist. -/
theorem C8_transcript_is_final_utterances (mode : Mode) (s : AgentState)
    (events : List AgentEvent) :
    (runAgent mode s events).1.messages = s.messages ++ finalTranscriptsOf events := by
  induction events generalizing s with
  | nil => simp [runAgent, finalTranscriptsOf]
  | cons e rest ih =>
    simp only [runAgent, finalTranscriptsOf, List.flatMap_cons]
    rw [ih, stepEvent_messages, List.append_assoc]
    rfl

theorem countActs_append (p : Action → Bool) (a b : List Action) :
    countActs p (a ++ b) = countActs p a + countActs p b := by
  simp [countActs, List.countP_append]

theorem dispatchFinished_flags (mode : Mode) (s : AgentState) :
    (dispatchFinished mode s).1.autoStopTriggered = s.autoStopTriggered ∧
    (dispatchFinished mode s).1.endingGenerateCall = s.endingGenerateCall ∧
    countActs isArmAction (dispatchFinished mode s).2 = 0 ∧
    countActs isExecAction (dispatchFinished mode s).2 = 0 := by
  cases mode <;>
    simp only [dispatchFinished, runInterviewGeneration, resetCallState] <;>
    repeat' split
  all_goals exact ⟨by trivial, by trivial, by rfl, by rfl⟩

theorem completeGenerationFlow_arm (mode : Mode) (r : CallStatus) (s : AgentState) :
    countActs isArmAction (completeGenerationFlow mode r s).2 +
      (if (completeGenerationFlow mode r s).1.autoStopTriggered then 0 else 1) ≤
      (if s.autoStopTriggered then 0 else 1) := by
  unfold completeGenerationFlow
  repeat' split <;> simp_all [countActs, isArmAction]

theorem completeGenerationFlow_exec (mode : Mode) (r : CallStatus) (s : AgentState) :
    (completeGenerationFlow mode r s).1.endingGenerateCall = s.endingGenerateCall ∧
    countActs isExecAction (completeGenerationFlow mode r s).2 = 0 := by
  unfold completeGenerationFlow
  repeat' split
  all_goals exact ⟨by trivial, by rfl⟩

theorem endGenerateCallAndContinue_exec (mode : Mode) (r : CallStatus) (s : AgentState) :
    countActs isExecAction (endGenerateCallAndContinue mode r s).2 +
      (if (endGenerateCallAndContinue mode r s).1.endingGenerateCall then 0 else 1) ≤
      (if s.endingGenerateCall then 0 else 1) := by
  unfold endGenerateCallAndContinue
  repeat' split <;> simp_all [countActs, isExecAction]

theorem endGenerateCallAndContinue_arm (mode : Mode) (r : CallStatus) (s : AgentState) :
    (endGenerateCallAndContinue mode r s).1.autoStopTriggered = s.autoStopTriggered ∧
    countActs isArmAction (endGenerateCallAndContinue mode r s).2 = 0 := by
  unfold endGenerateCallAndContinue
  repeat' split
  all_goals exact ⟨by trivial, by rfl⟩

theorem onMessageExtraction_arm (mode : Mode) (r : CallStatus) (s : AgentState) (body : Json) :
    countActs isArmAction (onMessageExtraction mode r s body).2 +
      (if (onMessageExtraction mode r s body).1.autoStopTriggered then 0 else 1) ≤
      (if s.autoStopTriggered then 0 else 1) := by
  unfold onMessageExtraction
  split
  · simp [countActs]
  · split
    · exact completeGenerationFlow_arm mode r _
    · simp [countActs]

theorem onMessageExtraction_exec (mode : Mode) (r : CallStatus) (s : AgentState) (body : Json) :
    (onMessageExtraction mode r s body).1.endingGenerateCall = s.endingGenerateCall ∧
    countActs isExecAction (onMessageExtraction mode r s body).2 = 0 := by
  unfold onMessageExtraction
  split
  · exact ⟨by trivial, by rfl⟩
  · split
    · exact completeGenerationFlow_exec mode r _
    · exact ⟨by trivial, by rfl⟩

theorem arm_compose (mode : Mode) (r : CallStatus) (s2 : AgentState) (body : Json) (c : Bool) :
    countActs isArmAction
        ((if c then endGenerateCallAndContinue mode r s2 else (s2, [])).2 ++
          (onMessageExtraction mode r
            (if c then endGenerateCallAndContinue mode r s2 else (s2, [])).1 body).2) +
      (if (onMessageExtraction mode r
            (if c then endGenerateCallAndContinue mode r s2 else (s2, [])).1
            body).1.autoStopTriggered
        then 0 else 1) ≤
      (if s2.autoStopTriggered then 0 else 1) := by
  rw [countActs_append]
  cases c with
  | false =>
    simp only [Bool.false_eq_true, if_false]
    have h2 := onMessageExtraction_arm mode r s2 body
    have h0 : countActs isArmAction ([] : List Action) = 0 := rfl
    omega
  | true =>
    simp only [if_true]
    have h1 := endGenerateCallAndContinue_arm mode r s2
    have h2 := onMessageExtraction_arm mode r (endGenerateCallAndContinue mode r s2).1 body
    rw [h1.1] at h2
    rw [h1.2]
    omega

theorem exec_compose (mode : Mode) (r : CallStatus) (s2 : AgentState) (body : Json) (c : Bool) :
    countActs isExecAction
        ((if c then endGenerateCallAndContinue mode r s2 else (s2, [])).2 ++
          (onMessageExtraction mode r
            (if c then endGenerateCallAndContinue mode r s2 else (s2, [])).1 body).2) +
      (if (onMessageExtraction mode r
            (if c then endGenerateCallAndContinue mode r s2 else (s2, [])).1
            body).1.endingGenerateCall
        then 0 else 1) ≤
      (if s2.endingGenerateCall then 0 else 1) := by
  rw [countActs_append]
  cases c with
  | false =>
    simp only [Bool.false_eq_true, if_false]
    have h2 := onMessageExtraction_exec mode r s2 body
    have h0 : countActs isExecAction ([] : List Action) = 0 := rfl
    simp only [h2.1]
    omega
  | true =>
    simp only [if_true]
    have h1 := endGenerateCallAndContinue_exec mode r s2
    have h2 := onMessageExtraction_exec mode r (endGenerateCallAndContinue mode r s2).1 body
    simp only [h2.1]
    omega

theorem onMessage_arm (mode : Mode) (now : Nat) (s : AgentState) (body : Json) :
    countActs isArmAction (onMessage mode now s body).2 +
      (if (onMessage mode now s body).1.autoStopTriggered then 0 else 1) ≤
      (if s.autoStopTriggered then 0 else 1) := by
  unfold onMessage
  dsimp only
  split
  case isFalse => exact onMessageExtraction_arm mode s.status s body
  case isTrue _ =>
    split
    case isTrue => split <;> simp [countActs]
    case isFalse =>
      split <;> exact arm_compose mode s.status _ body _

theorem onMessage_exec (mode : Mode) (now : Nat) (s : AgentState) (body : Json) :
    countActs isExecAction (onMessage mode now s body).2 +
      (if (onMessage mode now s body).1.endingGenerateCall then 0 else 1) ≤
      (if s.endingGenerateCall then 0 else 1) := by
  unfold onMessage
  dsimp only
  split
  case isFalse =>
    have h := onMessageExtraction_exec mode s.status s body
    simp only [h.1]
    omega
  case isTrue _ =>
    split
    case isTrue => split <;> simp [countActs]
    case isFalse =>
      split <;> exact exec_compose mode s.status _ body _

theorem onCallEnd_flags (mode : Mode) (s : AgentState) :
    (onCallEnd mode s).1.autoStopTriggered = s.autoStopTriggered ∧
    (onCallEnd mode s).1.endingGenerateCall = s.endingGenerateCall ∧
    (onCallEnd mode s).2 = [] := by
  unfold onCallEnd
  repeat' split
  all_goals exact ⟨by trivial, by trivial, by rfl⟩

theorem onError_flags (mode : Mode) (now : Nat) (s : AgentState) (err : Json) :
    (onError mode now s err).1.autoStopTriggered = s.autoStopTriggered ∧
    (onError mode now s err).1.endingGenerateCall = s.endingGenerateCall ∧
    countActs isArmAction (onError mode now s err).2 = 0 ∧
    countActs isExecAction (onError mode now s err).2 = 0 := by
  unfold onError handleEjectionGracefully
  dsimp only
  repeat' split
  all_goals exact ⟨by trivial, by trivial, by rfl, by rfl⟩

theorem handleEvent_arm (mode : Mode) (s : AgentState) (e : AgentEvent)
    (h : isCallStartEvent e = false) :
    countActs isArmAction (handleEvent mode s e).2 +
      (if (handleEvent mode s e).1.autoStopTriggered then 0 else 1) ≤
      (if s.autoStopTriggered then 0 else 1) := by
  cases e with
  | callStart => simp [isCallStartEvent] at h
  | callEnd =>
    have hc := onCallEnd_flags mode s
    simp only [handleEvent, hc.1, hc.2.2]
    simp [countActs]
  | message body now => exact onMessage_arm mode now s body
  | errorEvt err now =>
    have hc := onError_flags mode now s err
    have hcount := hc.2.2.1
    simp only [handleEvent, hc.1]
    omega
  | disconnectClick => simp [handleEvent, countActs, isArmAction]

theorem handleEvent_exec (mode : Mode) (s : AgentState) (e : AgentEvent)
    (h : isCallStartEvent e = false) :
    countActs isExecAction (handleEvent mode s e).2 +
      (if (handleEvent mode s e).1.endingGenerateCall then 0 else 1) ≤
      (if s.endingGenerateCall then 0 else 1) := by
  cases e with
  | callStart => simp [isCallStartEvent] at h
  | callEnd =>
    have hc := onCallEnd_flags mode s
    simp only [handleEvent, hc.2.1, hc.2.2]
    simp [countActs]
  | message body now => exact onMessage_exec mode now s body
  | errorEvt err now =>
    have hc := onError_flags mode now s err
    have hcount := hc.2.2.2
    simp only [handleEvent, hc.2.1]
    omega
  | disconnectClick => simp [handleEvent, countActs, isExecAction]

theorem countActs_entered (p : Action → Bool) (hp : p .enterFinished = false)
    (c : Prop) [Decidable c] :
    countActs p (if c then [Action.enterFinished] else []) = 0 := by
  split <;> simp [countActs, hp]

theorem stepEvent_arm (mode : Mode) (s : AgentState) (e : AgentEvent)
    (h : isCallStartEvent e = false) :
    countActs isArmAction (stepEvent mode s e).2 +
      (if (stepEvent mode s e).1.autoStopTriggered then 0 else 1) ≤
      (if s.autoStopTriggered then 0 else 1) := by
  have harm := handleEvent_arm mode s e h
  unfold stepEvent
  dsimp only
  split
  · rw [countActs_append, countActs_append, countActs_entered _ (by rfl)]
    have hd := dispatchFinished_flags mode (handleEvent mode s e).1
    have hdc := hd.2.2.1
    simp only [hd.1]
    omega
  · rw [countActs_append, countActs_entered _ (by rfl)]
    dsimp only
    omega

theorem stepEvent_exec (mode : Mode) (s : AgentState) (e : AgentEvent)
    (h : isCallStartEvent e = false) :
    countActs isExecAction (stepEvent mode s e).2 +
      (if (stepEvent mode s e).1.endingGenerateCall then 0 else 1) ≤
      (if s.endingGenerateCall then 0 else 1) := by
  have hexec := handleEvent_exec mode s e h
  unfold stepEvent
  dsimp only
  split
  · rw [countActs_append, countActs_append, countActs_entered _ (by rfl)]
    have hd := dispatchFinished_flags mode (handleEvent mode s e).1
    have hdc := hd.2.2.2
    simp only [hd.2.1]
    omega
  · rw [countActs_append, countActs_entered _ (by rfl)]
    dsimp only
    omega

theorem runAgent_arm (mode : Mode) (s : AgentState) (events : List AgentEvent)
    (h : ∀ e ∈ events, isCallStartEvent e = false) :
    countActs isArmAction (runAgent mode s events).2 +
      (if (runAgent mode s events).1.autoStopTriggered then 0 else 1) ≤
      (if s.autoStopTriggered then 0 else 1) := by
  induction events generalizing s with
  | nil => simp [runAgent, countActs]
  | cons e rest ih =>
    simp only [runAgent]
    rw [countActs_append]
    have h1 := stepEvent_arm mode s e (h e (by simp))
    have h2 := ih (stepEvent mode s e).1 (fun e' he' => h e' (by simp [he']))
    omega

theorem runAgent_exec (mode : Mode) (s : AgentState) (events : List AgentEvent)
    (h : ∀ e ∈ events, isCallStartEvent e = false) :
    countActs isExecAction (runAgent mode s events).2 +
      (if (runAgent mode s events).1.endingGenerateCall then 0 else 1) ≤
      (if s.endingGenerateCall then 0 else 1) := by
  induction events generalizing s with
  | nil => simp [runAgent, countActs]
  | cons e rest ih =>
    simp only [runAgent]
    rw [countActs_append]
    have h1 := stepEvent_exec mode s e (h e (by simp))
    have h2 := ih (stepEvent mode s e).1 (fun e' he' => h e' (by simp [he']))
    omega

/-- C3, amended: of the four guarded actions only auto-stop arming and
auto-stop execution are latched by booleans (`autoStopTriggeredRef`,
`endingGenerateCallRef`) reset only at session start, and each executes
at most once per session across arbitrary event sequences containing no
further session start; the counterexample shows that ejection handling is
deduplicated only by a 1500 ms cooldown and that the completion dispatch
can re-fire within one session, so neither of those is latched
at-most-once. -/
theorem C3_autostop_latched_once (mode : Mode) (s : AgentState) (events : List AgentEvent)
    (hnostart : ∀ e ∈ events, isCallStartEvent e = false)
    (harm : s.autoStopTriggered = false) (hexec : s.endingGenerateCall = false) :
    countActs isArmAction (runAgent mode s events).2 ≤ 1 ∧
    countActs isExecAction (runAgent mode s events).2 ≤ 1 := by
  have h1 := runAgent_arm mode s events hnostart
  have h2 := runAgent_exec mode s events hnostart
  rw [harm] at h1
  rw [hexec] at h2
  simp only [Bool.false_eq_true, if_false] at h1 h2
  omega

/-- C3, counterexample.  The claim asserts that ejection handling and
completion dispatch execute at most once per session via boolean latches;
after a single session start, two ejection errors arriving more than the
1500 ms cooldown apart (with no new session start between them) produce
two ejection notices and two completion dispatches. -/
theorem C3_counterexample :
    countActs isDispatchAction
        (runAgent .generate initialAgentState
          [.callStart,
           .errorEvt (.str "Meeting has ended") 2000,
           .errorEvt (.str "Meeting has ended") 4000]).2 = 2 ∧
    countActs isEjectionToastAction
        (runAgent .generate initialAgentState
          [.callStart,
           .errorEvt (.str "Meeting has ended") 2000,
           .errorEvt (.str "Meeting has ended") 4000]).2 = 2 := by
  exact ⟨by decide, by decide⟩

/-- C3, witness for the amended theorem: a session start followed by an
ejection error and an end signal arms and executes the auto-stop at most
once. -/
theorem C3_autostop_latched_once_witness :
    countActs isArmAction
        (runAgent .generate { initialAgentState with status := .active }
          [.errorEvt (.str "Meeting has ended") 2000, .callEnd]).2 ≤ 1 ∧
    countActs isExecAction
        (runAgent .generate { initialAgentState with status := .active }
          [.errorEvt (.str "Meeting has ended") 2000, .callEnd]).2 ≤ 1 :=
  C3_autostop_latched_once .generate _ _ (by decide) rfl rfl

theorem watchStep_startedAt (w : WatchState) (e : WatchEvent) :
    (watchStep w e).startedAt = w.startedAt := by
  cases e <;> unfold watchStep <;> dsimp only <;> repeat' split
  all_goals rfl

theorem watchStep_cleared_mono (w : WatchState) (e : WatchEvent) (h : w.cleared = true) :
    (watchStep w e).cleared = true := by
  cases e <;> simp [watchStep, h]

theorem watchFold_cleared_mono (w : WatchState) (events : List WatchEvent)
    (h : w.cleared = true) :
    (events.foldl watchStep w).cleared = true := by
  induction events generalizing w with
  | nil => exact h
  | cons e rest ih => exact ih _ (watchStep_cleared_mono w e h)

theorem watchFold_count_frozen (w : WatchState) (events : List WatchEvent)
    (h : w.cleared = true) :
    (events.foldl watchStep w).noticeCount = w.noticeCount := by
  induction events generalizing w with
  | nil => rfl
  | cons e rest ih =>
    have hstep : (watchStep w e).noticeCount = w.noticeCount := by
      cases e <;> simp [watchStep, h]
    rw [List.foldl_cons, ih _ (watchStep_cleared_mono w e h), hstep]

theorem watchFold_invariant (w : WatchState) (events : List WatchEvent)
    (h : (w.noticeCount = 0 ∧ w.cleared = false) ∨ (w.noticeCount = 1 ∧ w.cleared = true)) :
    ((events.foldl watchStep w).noticeCount = 0 ∧ (events.foldl watchStep w).cleared = false) ∨
    ((events.foldl watchStep w).noticeCount = 1 ∧ (events.foldl watchStep w).cleared = true) := by
  induction events generalizing w with
  | nil => exact h
  | cons e rest ih =>
    refine ih _ ?_
    cases e with
    | heard t => simpa [watchStep] using h
    | tick t =>
      rcases h with ⟨hc, hcl⟩ | ⟨hc, hcl⟩
      · unfold watchStep
        simp only [hcl, Bool.false_eq_true, if_false]
        repeat' split
        all_goals solve
          | (left; simp_all)
          | (right; simp_all)
      · right; simp [watchStep, hcl, hc]

theorem watchFold_fires (startedAt : Nat) (w : WatchState) (events : List WatchEvent)
    (hstart : w.startedAt = startedAt) (hlast : w.lastHeard = 0)
    (hticks : ∀ e ∈ events, ∃ t, e = WatchEvent.tick t)
    (hbeyond : ∃ t, WatchEvent.tick t ∈ events ∧ startedAt + 20000 < t) :
    (events.foldl watchStep w).cleared = true := by
  induction events generalizing w with
  | nil => rcases hbeyond with ⟨t, ht, _⟩; simp at ht
  | cons e rest ih =>
    rcases hticks e (by simp) with ⟨t0, rfl⟩
    rw [List.foldl_cons]
    by_cases hcl : w.cleared = true
    · exact watchFold_cleared_mono _ _ (watchStep_cleared_mono w _ hcl)
    · have hcl' : w.cleared = false := by simpa using hcl
      rcases hbeyond with ⟨t, ht, hgt⟩
      rcases List.mem_cons.mp ht with heq | hmem
      · have ht0 : startedAt + 20000 < t0 := by
          cases heq; exact hgt
        have hfire : (watchStep w (.tick t0)).cleared = true := by
          unfold watchStep
          simp only [hcl', Bool.false_eq_true, if_false, hlast]
          have : ¬(0 ≠ 0) := by simp
          simp only [ne_eq, not_true_eq_false, this, if_false, hstart]
          have hidle : t0 - startedAt > 20000 := by omega
          simp [hidle]
        exact watchFold_cleared_mono _ _ hfire
      · have hstep1 : (watchStep w (.tick t0)).startedAt = startedAt := by
          rw [watchStep_startedAt]; exact hstart
        have hstep2 : (watchStep w (.tick t0)).lastHeard = 0 := by
          unfold watchStep
          dsimp only
          repeat' split
          all_goals exact hlast
        exact ih _ hstep1 hstep2 (fun e he => hticks e (by simp [he])) ⟨t, hmem, hgt⟩



/-- C7, amended: the idle watchdog raises at most one "cannot hear you"
notice per Active period; once the notice fired it stops counting for the
remainder (the interval is cleared, further ticks change nothing); and a
silent Active period — no user transcript at all, with the idle timestamp
carrying its initial null — whose ticks reach past the 20000 ms bound
raises exactly one notice.  The idle clock is refreshed by ANY user
transcript, interim or final (cancellation on leaving Active is modelled
by the event list ending with the Active period). -/
theorem C7_watchdog_single_notice :
    (∀ (startedAt last0 : Nat) (events : List WatchEvent),
       (watchdogRun startedAt last0 events).noticeCount ≤ 1) ∧
    (∀ (startedAt last0 : Nat) (events extra : List WatchEvent),
       (watchdogRun startedAt last0 events).cleared = true →
       (watchdogRun startedAt last0 (events ++ extra)).noticeCount =
         (watchdogRun startedAt last0 events).noticeCount) ∧
    (∀ (startedAt : Nat) (events : List WatchEvent),
       (∀ e ∈ events, ∃ t, e = WatchEvent.tick t) →
       (∃ t, WatchEvent.tick t ∈ events ∧ startedAt + 20000 < t) →
       (watchdogRun startedAt 0 events).noticeCount = 1) := by
  refine ⟨?_, ?_, ?_⟩
  · intro startedAt last0 events
    unfold watchdogRun
    rcases watchFold_invariant
        { startedAt := startedAt, lastHeard := last0, cleared := false, noticeCount := 0 }
        events (Or.inl ⟨rfl, rfl⟩) with ⟨h, _⟩ | ⟨h, _⟩ <;>
      omega
  · intro startedAt last0 events extra h
    unfold watchdogRun at h ⊢
    rw [List.foldl_append]
    exact watchFold_count_frozen _ extra h
  · intro startedAt events hticks hbeyond
    have hfire := watchFold_fires startedAt
      { startedAt := startedAt, lastHeard := 0, cleared := false, noticeCount := 0 }
      events rfl rfl hticks hbeyond
    unfold watchdogRun
    rcases watchFold_invariant
        { startedAt := startedAt, lastHeard := 0, cleared := false, noticeCount := 0 }
        events (Or.inl ⟨rfl, rfl⟩) with ⟨_, hcl⟩ | ⟨h, _⟩
    · rw [hcl] at hfire; exact absurd hfire (by simp)
    · exact h

/-- C7, counterexample.  The claim conditions the notice on the absence
of FINAL user utterances; the code refreshes `lastUserTranscriptAtRef`
for every user transcript, interim ones included.  An interim user
transcript updates the idle timestamp while adding nothing to the
transcript log, and a 35000 ms Active period containing only interim
utterances (at 15000 and 30000) and no final one raises zero notices,
where the claim demands exactly one. -/
theorem C7_counterexample :
    ((stepEvent .interview { initialAgentState with status := .active }
        (.message (.obj [("type", .str "transcript"), ("role", .str "user"),
                         ("transcriptType", .str "interim"),
                         ("transcript", .str "um")]) 15000)).1.lastUserTranscriptAt = 15000 ∧
     (stepEvent .interview { initialAgentState with status := .active }
        (.message (.obj [("type", .str "transcript"), ("role", .str "user"),
                         ("transcriptType", .str "interim"),
                         ("transcript", .str "um")]) 15000)).1.messages = []) ∧
    (watchdogRun 0 0
        [.tick 5000, .tick 10000, .heard 15000, .tick 15000, .tick 20000,
         .tick 25000, .heard 30000, .tick 30000, .tick 35000]).noticeCount = 0 := by
  exact ⟨⟨by decide, by decide⟩, by decide⟩

/-- C7, witness: a silent period with a tick past the bound gets exactly
one notice, and any tick list at most one. -/
theorem C7_watchdog_single_notice_witness :
    (watchdogRun 0 0 [WatchEvent.tick 25000]).noticeCount = 1 ∧
    (watchdogRun 0 0 [WatchEvent.tick 25000, WatchEvent.tick 30000]).noticeCount ≤ 1 :=
  ⟨C7_watchdog_single_notice.2.2 0 [.tick 25000]
      (fun e he => by rw [List.mem_singleton] at he; exact ⟨25000, he⟩)
      ⟨25000, List.mem_singleton.mpr rfl, by omega⟩,
   C7_watchdog_single_notice.1 0 0 [.tick 25000, .tick 30000]⟩

end AgentSpec
